import Mathlib

/-!
A shallow embedding of `src/code_assistant.py` (the `AICodeAssistant` class)
and proofs of the behavioural properties of its static checker, its
error-handling policy, and its response-handling helpers.

Modelling conventions:
* Python strings are `String`, Python ints are `Int` (line numbers inside a
  parsed AST are `Nat`, since the parser only produces non-negative ones),
  Python floats (the `confidence` field, sampling temperatures) are `Rat`.
* The external pieces the code calls — CPython's `ast.parse` and the
  `openai.ChatCompletion.create` endpoint — are not part of this repository;
  their *outcomes* are explicit parameters (`ParseResult`, `CallResult`),
  so each capability is a total function of its inputs and of the outcome
  of its single external call, exactly mirroring the `try/except` structure
  of the source.
* Side effects (the outbound chat request, `print` on failure) are modelled
  by separate `..._effects` functions returning the list of effects the
  method performs; mutation of `openai.api_key` by the constructor is
  modelled by explicit state passing of an `OpenAIModule` record.
-/

/-- The `CodeSuggestion` dataclass (src lines 15–21). `confidence` is a
Python float, modelled as a rational. -/
structure CodeSuggestion where
  code : String
  confidence : Rat
  explanation : String
  category : String
  deriving DecidableEq

/-- The `BugReport` dataclass (src lines 24–30). `line_number` is a Python
int, modelled as `Int`. -/
structure BugReport where
  line_number : Int
  severity : String
  description : String
  fix_suggestion : Option String
  deriving DecidableEq

/-- What `_ast_analysis` can observe of a Python AST node's class: either it
is an `ast.ExceptHandler` — whose `type` attribute is an exception-type
expression, `none` exactly for a bare `except:` clause — or it is a node of
any other class, recorded by name. -/
inductive PyNodeKind where
  | exceptHandler (type : Option String)
  | otherNode (name : String)
  deriving DecidableEq

/-- A parsed Python AST node: its kind, its source line (`lineno`; the few
node classes without a real `lineno` carry 0 here — `_ast_analysis` never
reads those), and its children in the order `ast.iter_child_nodes` yields
them. -/
inductive PyAST where
  | node (kind : PyNodeKind) (lineno : Nat) (children : List PyAST)

/-- The children of a node, as `ast.iter_child_nodes` yields them. -/
def PyAST.children : PyAST → List PyAST
  | .node _ _ cs => cs

/-- The `lineno` attribute of a node. -/
def PyAST.lineno : PyAST → Nat
  | .node _ l _ => l

/-- The test on src line 228:
`isinstance(node, ast.ExceptHandler) and node.type is None`. -/
def PyAST.isBareExceptHandler : PyAST → Bool
  | .node (.exceptHandler none) _ _ => true
  | _ => false

mutual

/-- Number of nodes of a tree (termination measure for the BFS queue). -/
def PyAST.size : PyAST → Nat
  | .node _ _ cs => 1 + sizeListPy cs

/-- Total number of nodes of a list of trees. -/
def sizeListPy : List PyAST → Nat
  | [] => 0
  | t :: ts => PyAST.size t + sizeListPy ts

end

/-- The queue loop of CPython's `ast.walk`: pop the front node, append its
children to the queue, yield the node. `ast.walk` is imported here because
src line 226 iterates over it; it is breadth-first. -/
def walkAux : List PyAST → List PyAST
  | [] => []
  | t :: rest => t :: walkAux (rest ++ t.children)
termination_by q => sizeListPy q
decreasing_by
  cases t with
  | node k l cs =>
    have h : ∀ (xs ys : List PyAST), sizeListPy (xs ++ ys) = sizeListPy xs + sizeListPy ys := by
      intro xs ys
      induction xs with
      | nil => simp [sizeListPy]
      | cons a as ih => simp [sizeListPy, ih]; omega
    simp [PyAST.children, sizeListPy, PyAST.size, h]
    omega

/-- Python's `ast.walk(tree)`: every node of the tree, in BFS order. -/
def walk (t : PyAST) : List PyAST := walkAux [t]

/-- The `BugReport` constructed on src lines 229–234 for a bare except
handler at line `l`. -/
def mkBareReport (l : Nat) : BugReport :=
  { line_number := (l : Int)
    severity := "MEDIUM"
    description := "Bare except clause - specify exception type"
    fix_suggestion := some "except Exception as e:" }

/-- The body of the loop on src lines 226–234: for a single node, the
report appended when the node is a bare exception handler. -/
def bareCheck (n : PyAST) : Option BugReport :=
  if n.isBareExceptHandler then some (mkBareReport n.lineno) else none

/-- Method `AICodeAssistant._ast_analysis` (src lines 222–235): walk the tree and
collect one report per bare except handler, in traversal order. -/
def ast_analysis (tree : PyAST) : List BugReport :=
  (walk tree).filterMap bareCheck

mutual

/-- All nodes of a tree in depth-first preorder (the structural node list,
used to state traversal-order independence of the checker). -/
def allNodes : PyAST → List PyAST
  | .node k l cs => .node k l cs :: allNodesList cs

/-- All nodes of a list of trees in depth-first preorder. -/
def allNodesList : List PyAST → List PyAST
  | [] => []
  | t :: ts => allNodes t ++ allNodesList ts

end

/-- The same node-local check as `ast_analysis`, but run in depth-first
preorder instead of the BFS order of `ast.walk`. -/
def ast_analysis_dfs (tree : PyAST) : List BugReport :=
  (allNodes tree).filterMap bareCheck

/-- The source lines of the bare except handlers of a tree (in depth-first
preorder). -/
def bareLinesL (t : PyAST) : List Nat :=
  (allNodes t).filterMap (fun n => if n.isBareExceptHandler then some n.lineno else none)

/-- Outcome of `ast.parse(code)` (src line 97): a parsed tree, or a
`SyntaxError` carrying an optional `lineno` and a message `msg`. -/
inductive ParseResult where
  | ok (tree : PyAST)
  | error (lineno : Option Nat) (msg : String)

/-- Outcome of the single external `openai.ChatCompletion.create` call a
capability makes: the response's message content, or an exception rendered
as text. -/
inductive CallResult where
  | success (text : String)
  | failure (err : String)

/-- Method `AICodeAssistant._parse_suggestions` (src lines 217–220): an
unimplemented stub, returns the empty list for every response text. -/
def parse_suggestions (response_text : String) : List CodeSuggestion := []

/-- Method `AICodeAssistant._ai_bug_detection` (src lines 237–262), as a function
of the external call's outcome: on success the stubbed response parsing
returns `[]` (src line 258); on failure the handler prints and returns `[]`
(src lines 260–262). -/
def ai_bug_detection (call : CallResult) : List BugReport :=
  match call with
  | .success _ => []
  | .failure _ => []

/-- The `try/except SyntaxError` block of `analyze_code` (src lines
96–104): the static findings. On a successful parse, the findings of
`_ast_analysis`; on a `SyntaxError e`, one HIGH report whose line is
`e.lineno or 0` and whose description interpolates `e.msg`. -/
def static_reports (pr : ParseResult) : List BugReport :=
  match pr with
  | .ok tree => ast_analysis tree
  | .error lineno msg =>
      [{ line_number := ((lineno.getD 0 : Nat) : Int)
         severity := "HIGH"
         description := "Syntax Error: " ++ msg
         fix_suggestion := none }]

/-- Method `AICodeAssistant.analyze_code` (src lines 83–109), as a function of the
parse outcome of its input and of the outcome of the AI call: the static
findings followed by the (always empty) AI findings. -/
def analyze_code (pr : ParseResult) (call : CallResult) : List BugReport :=
  static_reports pr ++ ai_bug_detection call

/-- Method `AICodeAssistant.complete_code` (src lines 48–81), as a function of the
external call's outcome: on success, the (stubbed) suggestion parsing of
the response; on failure, print and return `[]`. The prompt built from
`code_context` and `max_suggestions` only affects the request, not the
returned value. -/
def complete_code (code_context : String) (max_suggestions : Int)
    (call : CallResult) : List CodeSuggestion :=
  match call with
  | .success text => parse_suggestions text
  | .failure _ => []

/-- The regex alternative `(?:python)?` after the opening fence: at a given
position the pattern's opening matches 10 characters when the text starts
with three backticks, the word python and a newline, 4 characters when it
starts with three backticks and a newline, and fails otherwise. -/
def openLen (cs : List Char) : Option Nat :=
  if ("```python\n".toList).isPrefixOf cs then some 10
  else if ("```\n".toList).isPrefixOf cs then some 4
  else none

/-- Split a character list at the first occurrence of the closing fence
(newline, three backticks): returns the part before it and the part after
it. This is where the lazy `(.*?)` of the regex stops. -/
def findCloseSplit : List Char → Option (List Char × List Char)
  | [] => none
  | c :: rest =>
    if ("\n```".toList).isPrefixOf (c :: rest) then some ([], (c :: rest).drop 4)
    else (findCloseSplit rest).map (fun p => (c :: p.1, p.2))

/-- The scan of `re.findall` for the leftmost match of
`r'```(?:python)?\n(.*?)\n```'` with `re.DOTALL` (src lines 267–268): try
each start position left to right; at a position where the opening fence
matches, the group is everything up to the first closing fence, and when no
closing fence follows, the scan moves on to the next position. Returns the
first match's group. -/
def findFirstBlock : List Char → Option (List Char)
  | [] => none
  | c :: rest =>
    match openLen (c :: rest) with
    | some n =>
      match findCloseSplit ((c :: rest).drop n) with
      | some p => some p.1
      | none => findFirstBlock rest
    | none => findFirstBlock rest

/-- Method `AICodeAssistant._extract_code` (src lines 264–269):
`matches[0] if matches else text`. -/
def extract_code (text : String) : String :=
  match findFirstBlock text.toList with
  | some body => String.mk body
  | none => text

/-- Whether the fenced-block pattern matches at the start of `cs`: the
opening fence matches and a closing fence occurs somewhere after it. -/
def matchAt0 (cs : List Char) : Bool :=
  match openLen cs with
  | some n => (findCloseSplit (cs.drop n)).isSome
  | none => false

/-- Whether the fenced-block pattern matches at position `i` of `cs`. -/
def matchAt (cs : List Char) (i : Nat) : Bool := matchAt0 (cs.drop i)

/-- The group of a fenced-block match at the start of `cs`: everything
between the opening fence and the first closing fence after it. -/
def bodyAt0 (cs : List Char) : List Char :=
  match openLen cs with
  | some n => ((findCloseSplit (cs.drop n)).map Prod.fst).getD []
  | none => []

/-- The group of a fenced-block match at position `i` of `cs`. -/
def bodyAt (cs : List Char) (i : Nat) : List Char := bodyAt0 (cs.drop i)

/-- Method `AICodeAssistant.refactor` (src lines 111–144), as a function of the
external call's outcome: on success, the extracted code block of the
response; on failure, print and return the original `code` unchanged. -/
def refactor (code : String) (style : String) (call : CallResult) : String :=
  match call with
  | .success text => extract_code text
  | .failure _ => code

/-- Method `AICodeAssistant.generate_documentation` (src lines 146–182), as a
function of the external call's outcome: the raw response text on success,
the empty string on failure. -/
def generate_documentation (code : String) (call : CallResult) : String :=
  match call with
  | .success text => text
  | .failure _ => ""

/-- Method `AICodeAssistant.explain_code` (src lines 184–215), as a function of
the external call's outcome: the raw response text on success, the empty
string on failure. -/
def explain_code (code : String) (call : CallResult) : String :=
  match call with
  | .success text => text
  | .failure _ => ""

/-- The instance state of an `AICodeAssistant`: the two attributes its
constructor sets on `self` (src lines 44–45). -/
structure AICodeAssistant where
  api_key : String
  model : String
  deriving DecidableEq

/-- The process-wide mutable state of the imported `openai` module: its
module-level `api_key` attribute, which src line 46 assigns. -/
structure OpenAIModule where
  api_key : Option String
  deriving DecidableEq

/-- The default of the constructor's `model` parameter (src line 36). -/
def defaultModel : String := "gpt-4"

/-- Method `AICodeAssistant.__init__` (src lines 36–46) as a transformer of the
`openai` module state: it stores `api_key` and `model` on the new instance
and assigns `openai.api_key = api_key`. -/
def AICodeAssistant.init (g : OpenAIModule) (api_key : String)
    (model : String) : AICodeAssistant × OpenAIModule :=
  ({ api_key := api_key, model := model }, { api_key := some api_key })

/-- The prompt of `complete_code` (src lines 59–63). -/
def complete_prompt (code_context : String) (max_suggestions : Int) : String :=
  "Complete the following code with best practices:\n        \n" ++ code_context ++
    "\n\nProvide " ++ toString max_suggestions ++ " different completion suggestions."

/-- The prompt of `_ai_bug_detection` (src lines 239–243). -/
def ai_bug_prompt (code : String) : String :=
  "Analyze this code for bugs, security issues, and problems:\n        \n" ++ code ++
    "\n\nList any issues found with severity and line numbers."

/-- An observable side effect of a capability: an outbound
`openai.ChatCompletion.create` request (model, system message, user
message, temperature, max_tokens), or a line printed by an exception
handler. -/
inductive Effect where
  | chatRequest (model : String) (system_content : String) (user_content : String)
      (temperature : Rat) (max_tokens : Nat)
  | printLine (s : String)
  deriving DecidableEq

/-- The side effects `_ai_bug_detection` performs (src lines 245–262): it
always attempts one chat request with temperature 0.3 and 500 max tokens,
and prints an error line when the call fails. -/
def ai_bug_detection_effects (a : AICodeAssistant) (code : String)
    (call : CallResult) : List Effect :=
  Effect.chatRequest a.model "You are a security and code quality expert."
      (ai_bug_prompt code) (3 / 10) 500 ::
    (match call with
     | .success _ => []
     | .failure e => [.printLine ("Error in AI bug detection: " ++ e)])

/-- The side effects `analyze_code` performs on input `code` (src lines
93–109): the AST work is pure, so they are exactly the effects of its
`_ai_bug_detection` call. -/
def analyze_code_effects (a : AICodeAssistant) (code : String)
    (call : CallResult) : List Effect :=
  ai_bug_detection_effects a code call

/-- Method `complete_code` as a state-passing computation: its body (src lines
48–81) writes neither `self` attributes nor `openai` module attributes, so
it returns both unchanged along with its value. -/
def complete_code_run (a : AICodeAssistant) (g : OpenAIModule)
    (code_context : String) (max_suggestions : Int) (call : CallResult) :
    List CodeSuggestion × AICodeAssistant × OpenAIModule :=
  (complete_code code_context max_suggestions call, a, g)

/-- Method `analyze_code` as a state-passing computation: its body (src lines
83–109) writes neither `self` attributes nor `openai` module attributes. -/
def analyze_code_run (a : AICodeAssistant) (g : OpenAIModule)
    (pr : ParseResult) (call : CallResult) :
    List BugReport × AICodeAssistant × OpenAIModule :=
  (analyze_code pr call, a, g)

/-- Method `refactor` as a state-passing computation: its body (src lines 111–144)
writes neither `self` attributes nor `openai` module attributes. -/
def refactor_run (a : AICodeAssistant) (g : OpenAIModule)
    (code style : String) (call : CallResult) :
    String × AICodeAssistant × OpenAIModule :=
  (refactor code style call, a, g)

/-- Method `generate_documentation` as a state-passing computation: its body (src
lines 146–182) writes neither `self` attributes nor `openai` module
attributes. -/
def generate_documentation_run (a : AICodeAssistant) (g : OpenAIModule)
    (code : String) (call : CallResult) :
    String × AICodeAssistant × OpenAIModule :=
  (generate_documentation code call, a, g)

/-- Method `explain_code` as a state-passing computation: its body (src lines
184–215) writes neither `self` attributes nor `openai` module
attributes. -/
def explain_code_run (a : AICodeAssistant) (g : OpenAIModule)
    (code : String) (call : CallResult) :
    String × AICodeAssistant × OpenAIModule :=
  (explain_code code call, a, g)

/-- The parsed tree of the spec's scenario snippet
`try:\n    x = 1\nexcept:\n    pass`: a Module containing a Try whose body
assigns at line 2 and whose single handler is a bare except at line 3. -/
def exampleBareTree : PyAST :=
  .node (.otherNode "Module") 0
    [.node (.otherNode "Try") 1
      [.node (.otherNode "Assign") 2 [.node (.otherNode "Constant") 2 []],
       .node (.exceptHandler none) 3 [.node (.otherNode "Pass") 4 []]]]

/-- The parsed tree of the spec's scenario snippet
`try:\n    x = 1\nexcept ValueError:\n    pass`: as above but the handler
carries the type expression `ValueError`, so no handler is bare. -/
def exampleTypedTree : PyAST :=
  .node (.otherNode "Module") 0
    [.node (.otherNode "Try") 1
      [.node (.otherNode "Assign") 2 [.node (.otherNode "Constant") 2 []],
       .node (.exceptHandler (some "ValueError")) 3 [.node (.otherNode "Pass") 4 []]]]

/-- A tree with two bare except handlers, at lines 3 and 7. -/
def exampleTwoBareTree : PyAST :=
  .node (.otherNode "Module") 0
    [.node (.otherNode "Try") 1
      [.node (.otherNode "Assign") 2 [],
       .node (.exceptHandler none) 3 [.node (.otherNode "Pass") 4 []]],
     .node (.otherNode "Try") 5
      [.node (.otherNode "Assign") 6 [],
       .node (.exceptHandler none) 7 [.node (.otherNode "Pass") 8 []]]]

/-- The HIGH report `analyze_code` produces for the unparsable snippet
reported as message `invalid input` with no line. -/
def exampleSyntaxErrorReport : BugReport :=
  { line_number := 0
    severity := "HIGH"
    description := "Syntax Error: invalid input"
    fix_suggestion := none }

/-! ## Supporting lemmas -/

theorem sizeListPy_append (xs ys : List PyAST) :
    sizeListPy (xs ++ ys) = sizeListPy xs + sizeListPy ys := by
  induction xs with
  | nil => simp [sizeListPy]
  | cons a as ih => simp [sizeListPy, ih]; omega

theorem allNodesList_append (xs ys : List PyAST) :
    allNodesList (xs ++ ys) = allNodesList xs ++ allNodesList ys := by
  induction xs with
  | nil => simp [allNodesList]
  | cons a as ih => simp [allNodesList, ih]

theorem walkAux_perm_aux :
    ∀ (n : Nat) (q : List PyAST), sizeListPy q ≤ n →
      List.Perm (walkAux q) (allNodesList q) := by
  intro n
  induction n with
  | zero =>
    intro q hq
    cases q with
    | nil => simp [walkAux, allNodesList]
    | cons t rest =>
      exfalso
      cases t with
      | node k l cs => simp [sizeListPy, PyAST.size] at hq
  | succ n ih =>
    intro q hq
    cases q with
    | nil => simp [walkAux, allNodesList]
    | cons t rest =>
      cases t with
      | node k l cs =>
        rw [show walkAux (PyAST.node k l cs :: rest)
              = PyAST.node k l cs :: walkAux (rest ++ cs) from by
            simp [walkAux, PyAST.children]]
        have hsz : sizeListPy (rest ++ cs) ≤ n := by
          rw [sizeListPy_append]
          simp [sizeListPy, PyAST.size] at hq
          omega
        have h1 := ih (rest ++ cs) hsz
        rw [allNodesList_append] at h1
        have h2 : List.Perm (walkAux (rest ++ cs)) (allNodesList cs ++ allNodesList rest) :=
          h1.trans List.perm_append_comm
        rw [show allNodesList (PyAST.node k l cs :: rest)
              = PyAST.node k l cs :: (allNodesList cs ++ allNodesList rest) from by
            simp [allNodesList, allNodes]]
        exact h2.cons _

theorem walkAux_perm (q : List PyAST) :
    List.Perm (walkAux q) (allNodesList q) :=
  walkAux_perm_aux (sizeListPy q) q le_rfl

theorem walk_perm (t : PyAST) : List.Perm (walk t) (allNodes t) := by
  have h := walkAux_perm [t]
  simpa [walk, allNodesList] using h

theorem ast_analysis_perm (t : PyAST) :
    List.Perm (ast_analysis t) (ast_analysis_dfs t) :=
  (walk_perm t).filterMap bareCheck

theorem ast_analysis_dfs_eq_map (t : PyAST) :
    ast_analysis_dfs t = (bareLinesL t).map mkBareReport := by
  unfold ast_analysis_dfs bareLinesL
  rw [List.map_filterMap _ _ _]
  congr 1
  funext n
  by_cases h : n.isBareExceptHandler <;> simp [bareCheck, h]

theorem ast_analysis_perm_map (t : PyAST) :
    List.Perm (ast_analysis t) ((bareLinesL t).map mkBareReport) := by
  have h := ast_analysis_perm t
  rw [ast_analysis_dfs_eq_map] at h
  exact h

theorem ai_bug_detection_eq_nil (c : CallResult) : ai_bug_detection c = [] := by
  cases c <;> rfl

/-! ## Claims -/

/-- C1: for every syntactically valid input (a successfully parsed tree)
that contains no bare except handler, `analyze_code` returns the empty
list of bug reports, whatever the outcome of the AI call. -/
theorem analyze_code_no_bare_empty (t : PyAST) (call : CallResult)
    (h : bareLinesL t = []) : analyze_code (.ok t) call = [] := by
  have hp := ast_analysis_perm_map t
  rw [h, List.map_nil] at hp
  have h0 := List.perm_nil.mp hp
  simp [analyze_code, static_reports, h0, ai_bug_detection_eq_nil]

/-- Witness for C1: the spec's scenario snippet whose handler is typed
(`except ValueError:`) yields no findings. -/
theorem analyze_code_no_bare_empty_witness :
    bareLinesL exampleTypedTree = [] ∧
    analyze_code (.ok exampleTypedTree) (.success "") = [] :=
  ⟨by decide, analyze_code_no_bare_empty exampleTypedTree (.success "") (by decide)⟩

/-- C2 counterexample: on the spec's scenario tree — exactly one bare
except handler, at line 3 — `analyze_code` does return one MEDIUM report at
line 3, but its description is the source's
"Bare except clause - specify exception type" (hyphen-minus), not the
claim's "Bare except clause — specify exception type" (em dash). -/
theorem bare_report_description_counterexample :
    bareLinesL exampleBareTree = [3] ∧
    (analyze_code (.ok exampleBareTree) (.success "")).map BugReport.description ≠
      ["Bare except clause — specify exception type"] := by
  constructor
  · decide
  · rw [show analyze_code (.ok exampleBareTree) (.success "") = [mkBareReport 3] from by
      simp [analyze_code, static_reports, ast_analysis, walk, walkAux, exampleBareTree,
        PyAST.children, bareCheck, PyAST.isBareExceptHandler, PyAST.lineno,
        ai_bug_detection, List.filterMap]]
    decide

/-- C2 (amended): for every successfully parsed tree with exactly one bare
except handler, at line `L`, `analyze_code` returns exactly one report,
with `line_number = L`, severity MEDIUM, description
"Bare except clause - specify exception type" and fix suggestion
"except Exception as e:". -/
theorem analyze_code_single_bare (t : PyAST) (call : CallResult) (L : Nat)
    (h : bareLinesL t = [L]) :
    analyze_code (.ok t) call = [mkBareReport L] := by
  have hp := ast_analysis_perm_map t
  rw [h, List.map_cons, List.map_nil] at hp
  have h1 : ast_analysis t = [mkBareReport L] := List.perm_singleton.mp hp
  simp [analyze_code, static_reports, h1, ai_bug_detection_eq_nil]

/-- Witness for the amended C2: the spec's scenario tree, whose single bare
handler sits at line 3. -/
theorem analyze_code_single_bare_witness :
    analyze_code (.ok exampleBareTree) (.success "") = [mkBareReport 3] :=
  analyze_code_single_bare exampleBareTree (.success "") 3 (by decide)

/-- C3: for every successfully parsed tree whose bare except handlers sit
at pairwise distinct lines, `analyze_code` returns exactly as many reports
as there are bare handlers, each handler's line is reported once and
exactly once, and the findings do not depend on the traversal order: the
BFS traversal of `ast.walk` and a depth-first traversal produce the same
reports up to permutation. -/
theorem analyze_code_bare_count (t : PyAST) (call : CallResult)
    (h : (bareLinesL t).Nodup) :
    (analyze_code (.ok t) call).length = (bareLinesL t).length ∧
    (∀ l ∈ bareLinesL t,
      ((analyze_code (.ok t) call).map BugReport.line_number).count ((l : Nat) : Int) = 1) ∧
    List.Perm (ast_analysis t) (ast_analysis_dfs t) := by
  have hp := ast_analysis_perm_map t
  have hA : analyze_code (.ok t) call = ast_analysis t := by
    simp [analyze_code, static_reports, ai_bug_detection_eq_nil]
  refine ⟨?_, ?_, ast_analysis_perm t⟩
  · rw [hA, hp.length_eq, List.length_map]
  · intro l hl
    rw [hA]
    have hm := hp.map BugReport.line_number
    have hmap : ((bareLinesL t).map mkBareReport).map BugReport.line_number
        = (bareLinesL t).map (fun n : Nat => (n : Int)) := by
      induction bareLinesL t with
      | nil => simp
      | cons a as ih => simp [mkBareReport, ih]
    rw [hmap] at hm
    rw [hm.count_eq]
    rw [List.count_map_of_injective _ _ (fun a b hab => by exact_mod_cast hab) l]
    exact List.count_eq_one_of_mem h hl

/-- Witness for C3: the two-handler tree, bare handlers at lines 3 and 7. -/
theorem analyze_code_bare_count_witness :
    (analyze_code (.ok exampleTwoBareTree) (.success "")).length
        = (bareLinesL exampleTwoBareTree).length ∧
    (∀ l ∈ bareLinesL exampleTwoBareTree,
      ((analyze_code (.ok exampleTwoBareTree) (.success "")).map
          BugReport.line_number).count ((l : Nat) : Int) = 1) ∧
    List.Perm (ast_analysis exampleTwoBareTree) (ast_analysis_dfs exampleTwoBareTree) :=
  analyze_code_bare_count exampleTwoBareTree (.success "") (by decide)

/-- C4: for every syntactically invalid snippet — a parse outcome carrying
a parser line and message — `analyze_code` returns exactly one finding, of
severity HIGH, whose description contains the parser's message and whose
line number is the parser-reported line, or 0 when the parser reports
none. -/
theorem analyze_code_syntax_error (lineno : Option Nat) (msg : String)
    (call : CallResult) :
    ∃ r, analyze_code (.error lineno msg) call = [r] ∧
      r.severity = "HIGH" ∧
      (∃ p q, r.description = p ++ msg ++ q) ∧
      r.line_number = (match lineno with | some l => ((l : Nat) : Int) | none => 0) := by
  refine ⟨{ line_number := ((lineno.getD 0 : Nat) : Int)
            severity := "HIGH"
            description := "Syntax Error: " ++ msg
            fix_suggestion := none }, ?_, rfl, ⟨"Syntax Error: ", "", by simp⟩, ?_⟩
  · simp [analyze_code, static_reports, ai_bug_detection_eq_nil]
  · cases lineno <;> simp [Option.getD]

/-- C5: every public capability is total in this embedding (a total
function of its input and of its external call's outcome), and when the
external call fails each returns its documented safe default: the empty
list for `complete_code`, the purely static findings for `analyze_code`,
the original unmodified input for `refactor`, and the empty string for
`generate_documentation` and `explain_code` — no error is raised past the
capability's boundary. -/
theorem capabilities_total_safe_defaults (code_context code style err : String)
    (max_suggestions : Int) (pr : ParseResult) :
    complete_code code_context max_suggestions (.failure err) = [] ∧
    analyze_code pr (.failure err) = static_reports pr ∧
    refactor code style (.failure err) = code ∧
    generate_documentation code (.failure err) = "" ∧
    explain_code code (.failure err) = "" := by
  refine ⟨rfl, ?_, rfl, rfl, rfl⟩
  simp [analyze_code, ai_bug_detection]

/-- C6 counterexample: constructing an assistant is not free of process-wide
mutable state — `__init__` assigns `openai.api_key` (src line 46), so the
`openai` module state after construction differs from the state before. -/
theorem init_mutates_openai_module :
    (AICodeAssistant.init { api_key := none } "secret-key" defaultModel).2 ≠
      ({ api_key := none } : OpenAIModule) := by
  decide

/-- C6 (amended): the instance state is exactly the API credential and the
model identifier, set once at construction from the constructor's
arguments, and no capability invocation mutates the instance or the
`openai` module state; construction, however, also writes the credential to
the process-wide mutable `openai.api_key` module attribute. -/
theorem instance_state_set_once_global_written (g : OpenAIModule)
    (k m code_context code style : String) (max_suggestions : Int)
    (pr : ParseResult) (call : CallResult) (a : AICodeAssistant) :
    AICodeAssistant.init g k m = ({ api_key := k, model := m }, { api_key := some k }) ∧
    (complete_code_run a g code_context max_suggestions call).2 = (a, g) ∧
    (analyze_code_run a g pr call).2 = (a, g) ∧
    (refactor_run a g code style call).2 = (a, g) ∧
    (generate_documentation_run a g code call).2 = (a, g) ∧
    (explain_code_run a g code call).2 = (a, g) :=
  ⟨rfl, rfl, rfl, rfl, rfl, rfl⟩

/-- C7 counterexample: `analyze_code` is not side-effect-free — on any
input it performs an outbound chat request (its `_ai_bug_detection` call
sends the analyzed code to the external endpoint), so its effect list is
never empty. -/
theorem analyze_code_has_side_effect :
    analyze_code_effects { api_key := "key", model := "gpt-4" } "x = 1"
      (.success "ok") ≠ [] := by
  simp [analyze_code_effects, ai_bug_detection_effects]

/-- C7 (amended): the list of reports `analyze_code` returns is a pure,
deterministic function of the parse outcome of the input text alone — in
particular it is independent of the outcome of the external call — but
`analyze_code` is not free of side effects: it always issues one outbound
chat request carrying the analyzed code. -/
theorem analyze_code_value_deterministic (pr : ParseResult) (c c' : CallResult)
    (a : AICodeAssistant) (code : String) :
    analyze_code pr c = analyze_code pr c' ∧
    analyze_code_effects a code c ≠ [] := by
  constructor
  · simp [analyze_code, ai_bug_detection_eq_nil]
  · simp [analyze_code_effects, ai_bug_detection_effects]

/-- C8: `complete_code` returns the empty list for every context, every
`max_suggestions` value, and every outcome of the external call: on success
the unimplemented suggestion parser yields no suggestions, and on failure
the safe default is also the empty list. -/
theorem complete_code_always_empty (code_context : String)
    (max_suggestions : Int) (call : CallResult) :
    complete_code code_context max_suggestions call = [] := by
  cases call <;> rfl

/-- C10: every report returned by `analyze_code` has severity MEDIUM or
HIGH, and a non-negative line number. -/
theorem analyze_code_reports_invariant (pr : ParseResult) (call : CallResult)
    (r : BugReport) (h : r ∈ analyze_code pr call) :
    (r.severity = "MEDIUM" ∨ r.severity = "HIGH") ∧ 0 ≤ r.line_number := by
  rw [analyze_code, ai_bug_detection_eq_nil, List.append_nil] at h
  cases pr with
  | error lineno msg =>
    simp only [static_reports, List.mem_singleton] at h
    subst h
    exact ⟨Or.inr rfl, Int.natCast_nonneg _⟩
  | ok t =>
    have h2 : r ∈ (bareLinesL t).map mkBareReport := by
      simp only [static_reports] at h
      exact (ast_analysis_perm_map t).mem_iff.mp h
    obtain ⟨l, _, rfl⟩ := List.mem_map.mp h2
    exact ⟨Or.inl rfl, Int.natCast_nonneg l⟩

/-- Witness for C10: the HIGH report produced for an unparsable snippet
with no parser-reported line. -/
theorem analyze_code_reports_invariant_witness :
    (exampleSyntaxErrorReport.severity = "MEDIUM" ∨
      exampleSyntaxErrorReport.severity = "HIGH") ∧
    0 ≤ exampleSyntaxErrorReport.line_number :=
  analyze_code_reports_invariant (.error none "invalid input") (.success "")
    exampleSyntaxErrorReport (by decide)

theorem matchAt_zero (cs : List Char) : matchAt cs 0 = matchAt0 cs := by
  simp [matchAt]

theorem matchAt_succ_cons (c : Char) (rest : List Char) (i : Nat) :
    matchAt (c :: rest) (i + 1) = matchAt rest i := by
  simp [matchAt, List.drop_succ_cons]

theorem bodyAt_succ_cons (c : Char) (rest : List Char) (i : Nat) :
    bodyAt (c :: rest) (i + 1) = bodyAt rest i := by
  simp [bodyAt, List.drop_succ_cons]

theorem matchAt_nil (i : Nat) : matchAt [] i = false := by
  unfold matchAt
  rw [List.drop_nil]
  decide

theorem findFirstBlock_eq_none_iff (cs : List Char) :
    findFirstBlock cs = none ↔ ∀ i, matchAt cs i = false := by
  induction cs with
  | nil =>
    simp [findFirstBlock, matchAt_nil]
  | cons c rest ih =>
    cases h1 : openLen (c :: rest) with
    | some n =>
      cases h2 : findCloseSplit ((c :: rest).drop n) with
      | some p =>
        have hf : findFirstBlock (c :: rest) = some p.1 := by
          simp only [findFirstBlock, h1, h2]
        have hm : matchAt (c :: rest) 0 = true := by
          rw [matchAt_zero]
          unfold matchAt0
          simp only [h1, h2, Option.isSome_some]
        constructor
        · intro h
          rw [hf] at h
          exact absurd h (by simp)
        · intro h
          exact absurd (h 0) (by rw [hm]; simp)
      | none =>
        have hf : findFirstBlock (c :: rest) = findFirstBlock rest := by
          simp only [findFirstBlock, h1, h2]
        have hm : matchAt (c :: rest) 0 = false := by
          rw [matchAt_zero]
          unfold matchAt0
          simp only [h1, h2, Option.isSome_none]
        rw [hf, ih]
        constructor
        · intro h i
          cases i with
          | zero => exact hm
          | succ i => rw [matchAt_succ_cons]; exact h i
        · intro h i
          have hi := h (i + 1)
          rw [matchAt_succ_cons] at hi
          exact hi
    | none =>
      have hf : findFirstBlock (c :: rest) = findFirstBlock rest := by
        simp only [findFirstBlock, h1]
      have hm : matchAt (c :: rest) 0 = false := by
        rw [matchAt_zero]
        unfold matchAt0
        rw [h1]
      rw [hf, ih]
      constructor
      · intro h i
        cases i with
        | zero => exact hm
        | succ i => rw [matchAt_succ_cons]; exact h i
      · intro h i
        have hi := h (i + 1)
        rw [matchAt_succ_cons] at hi
        exact hi

theorem findFirstBlock_eq_of_first (i : Nat) :
    ∀ (cs : List Char), matchAt cs i = true →
      (∀ j, j < i → matchAt cs j = false) →
      findFirstBlock cs = some (bodyAt cs i) := by
  induction i with
  | zero =>
    intro cs h _
    rw [matchAt_zero] at h
    cases cs with
    | nil =>
      rw [show matchAt0 [] = false from by decide] at h
      exact absurd h (by simp)
    | cons c rest =>
      unfold matchAt0 at h
      cases h1 : openLen (c :: rest) with
      | none =>
        simp only [h1] at h
        exact Bool.noConfusion h
      | some n =>
        simp only [h1] at h
        cases h2 : findCloseSplit ((c :: rest).drop n) with
        | none =>
          rw [h2] at h
          exact Bool.noConfusion h
        | some p =>
          rw [show findFirstBlock (c :: rest) = some p.1 from by
            simp only [findFirstBlock, h1, h2]]
          unfold bodyAt bodyAt0
          rw [List.drop_zero]
          simp [h1, h2]
  | succ i ih =>
    intro cs h hmin
    cases cs with
    | nil =>
      rw [matchAt_nil] at h
      exact absurd h (by simp)
    | cons c rest =>
      have h0 : matchAt (c :: rest) 0 = false := hmin 0 (Nat.succ_pos i)
      rw [matchAt_zero] at h0
      have hrest : matchAt rest i = true := by
        rw [← matchAt_succ_cons c rest i]
        exact h
      have hminrest : ∀ j, j < i → matchAt rest j = false := by
        intro j hj
        rw [← matchAt_succ_cons c rest j]
        exact hmin (j + 1) (Nat.succ_lt_succ hj)
      have hres := ih rest hrest hminrest
      rw [bodyAt_succ_cons]
      unfold matchAt0 at h0
      cases h1 : openLen (c :: rest) with
      | none =>
        rw [show findFirstBlock (c :: rest) = findFirstBlock rest from by
          simp only [findFirstBlock, h1]]
        exact hres
      | some n =>
        simp only [h1] at h0
        cases h2 : findCloseSplit ((c :: rest).drop n) with
        | some p =>
          rw [h2] at h0
          exact Bool.noConfusion h0
        | none =>
          rw [show findFirstBlock (c :: rest) = findFirstBlock rest from by
            simp only [findFirstBlock, h1, h2]]
          exact hres

/-- C9: `_extract_code` returns the entire input text unchanged when the
fenced-block pattern of its regex matches at no position of the text, and
returns the content of the first fenced code block — the group of the
leftmost match, ending at the first closing fence — when a match exists. -/
theorem extract_code_first_fenced_block (text : String) :
    ((∀ i, matchAt text.toList i = false) → extract_code text = text) ∧
    (∀ i, matchAt text.toList i = true →
      (∀ j, j < i → matchAt text.toList j = false) →
      extract_code text = String.mk (bodyAt text.toList i)) := by
  constructor
  · intro h
    unfold extract_code
    rw [(findFirstBlock_eq_none_iff text.toList).mpr h]
  · intro i h hmin
    unfold extract_code
    rw [findFirstBlock_eq_of_first i text.toList h hmin]

/-- Witness for C9: a response with two fenced blocks; the first block's
content is returned. -/
theorem extract_code_first_fenced_block_witness :
    extract_code "see ```\nx = 1\n``` and ```\ny\n```" = "x = 1" := by
  have h := (extract_code_first_fenced_block "see ```\nx = 1\n``` and ```\ny\n```").2 4
    (by decide) (by decide)
  exact h.trans (by decide)
